import Mathlib

/-!
Shallow embedding of the analysis engine of `financial_sentiment_dashboard`
(`src/financial_sentiment_dashboard/analysis.py`).

Conventions of the embedding:
* pandas/numpy float columns are modelled over `ℚ`;
* a pandas `NaN` cell or `NaN` scalar result is modelled as `none` of an
  `Option` type (so a column that can hold `NaN` is a `List (Option ℚ)` and a
  statistic that can be `NaN` is an `Option _`);
* a dataframe is a record of optional columns; the in-place column assignments
  performed by the analyzers are modelled by returning the mutated dataframe
  next to the computed summary record.
-/

/-- Arithmetic mean of a list of rationals, `Series.mean` on a list without
missing values (the caller guards emptiness the way pandas does, by `NaN`). -/
def meanQ (xs : List ℚ) : ℚ := xs.sum / xs.length

/-- `Series.mean` with pandas `NaN` semantics: the mean of an empty series is
`NaN` (`none`). -/
def meanNaN (xs : List ℚ) : Option ℚ := if xs.isEmpty then none else some (meanQ xs)

/-- Sample variance (`ddof = 1`, the pandas `Series.std` default, squared):
`Σ (x - mean)² / (n - 1)` over the non-missing values, `NaN` (`none`) when
fewer than two values are present. -/
def sampleVar (xs : List ℚ) : Option ℚ :=
  if 2 ≤ xs.length then
    some (((xs.map (fun x => (x - meanQ xs) ^ 2)).sum) / (xs.length - 1 : ℕ))
  else none

/-- `Series.pct_change` restricted to its defined entries: entry `i ≥ 1` is
`(x[i] - x[i-1]) / x[i-1]`; the undefined entry at index 0 is dropped (pandas
stores it as `NaN` and every consumer in the source skips `NaN`s). -/
def pctChange (xs : List ℚ) : List ℚ :=
  (xs.tail.zip xs).map (fun p => (p.1 - p.2) / p.2)

/-- `Series.rolling(window=w).mean()`: position `i` holds `NaN` (`none`) while
fewer than `w` observations are available (`i + 1 < w`), and otherwise the mean
of the window of the `w` entries ending at position `i`. -/
def rollingMean (w : ℕ) (xs : List ℚ) : List (Option ℚ) :=
  (List.range xs.length).map (fun i =>
    if i + 1 < w then none
    else some ((((xs.take (i + 1)).drop (i + 1 - w)).sum) / (w : ℚ)))


/-- `Series.std` (sample, `ddof = 1`) with pandas `NaN` semantics: `none` when
fewer than two values, otherwise the square root of the sample variance. -/
noncomputable def stdNaN (xs : List ℚ) : Option ℝ :=
  (sampleVar xs).map (fun v => Real.sqrt (v : ℝ))

/-- The per-symbol price table.  Columns `High`/`Low`/`Close`/`Volume` as
loaded (`volume = none` models an absent `Volume` column), plus the derived
columns `MA5`/`MA20`/`Returns` that the analyzers assign in place (`none` =
column not yet created).  The `Open` and index columns are never read by the
three analyzers and are carried only as data. -/
structure StockDF where
  openCol : List ℚ := []
  high : List ℚ := []
  low : List ℚ := []
  close : List ℚ := []
  volume : Option (List ℚ) := none
  ma5 : Option (List (Option ℚ)) := none
  ma20 : Option (List (Option ℚ)) := none
  returns : Option (List ℚ) := none
deriving DecidableEq, Repr

/-- The three in-place column assignments at the top of `technical_analysis`:
`df['MA5'] = ...rolling(5).mean()`, `df['MA20'] = ...rolling(20).mean()`,
`df['Returns'] = df['Close'].pct_change()` (the `Returns` column is stored as
its defined entries; the leading `NaN` is skipped by every consumer). -/
def techMutate (df : StockDF) : StockDF :=
  { df with
    ma5 := some (rollingMean 5 df.close)
    ma20 := some (rollingMean 20 df.close)
    returns := some (pctChange df.close) }

/-- The float comparison `a > b` of the source where `b` may be `NaN`
(`none`): every comparison against `NaN` evaluates to `False`. -/
def nanGt (a : ℚ) (b : Option ℚ) : Bool :=
  match b with
  | none => false
  | some x => decide (x < a)

/-- The `analysis` dictionary built by `technical_analysis`: annualized
volatility, trend string, and the two volume fields (absent — `none` — when
the table has no `Volume` column). -/
structure TechResult where
  volatility : Option ℝ
  trend : String
  avg_volume : Option ℚ
  volume_trend : Option String

/-- `technical_analysis(df)`: assigns the `MA5`/`MA20`/`Returns` columns in
place, then builds the analysis dictionary.  The first component is `none`
when an `iloc[-1]` on an empty column raises and the `except` clause returns
`{}` — note the column mutation has already happened at that point.  The trend
is `'Upward' if df['Close'].iloc[-1] > df['MA20'].iloc[-1] else 'Downward'`,
where a `NaN` last MA20 makes the comparison `False`. -/
noncomputable def technical_analysis (df : StockDF) : Option TechResult × StockDF :=
  let df' := techMutate df
  let rets := pctChange df.close
  let vol : Option ℝ := (stdNaN rets).map (fun s => s * Real.sqrt 252)
  let res : Option TechResult :=
    match df.close.getLast?, df.volume with
    | none, _ => none
    | some c, none =>
        some { volatility := vol
               trend := if nanGt c ((rollingMean 20 df.close).getLast?.join)
                        then "Upward" else "Downward"
               avg_volume := none
               volume_trend := none }
    | some c, some v =>
        match v.getLast? with
        | none => none
        | some vlast =>
            some { volatility := vol
                   trend := if nanGt c ((rollingMean 20 df.close).getLast?.join)
                            then "Upward" else "Downward"
                   avg_volume := some (meanQ v)
                   volume_trend := some (if meanQ v < vlast
                                         then "Increasing" else "Decreasing") }
  (res, df')

/-- The conditional column assignment at the top of `statistical_analysis`:
`if 'Returns' not in df.columns: df['Returns'] = df['Close'].pct_change()`. -/
def statMutate (df : StockDF) : StockDF :=
  match df.returns with
  | none => { df with returns := some (pctChange df.close) }
  | some _ => df

/-- Central moment of order `k` (population, as used by `scipy.stats.skew` and
`scipy.stats.kurtosis` with their default `bias=True`). -/
def momQ (k : ℕ) (xs : List ℚ) : ℚ :=
  (xs.map (fun x => (x - meanQ xs) ^ k)).sum / xs.length

/-- `scipy.stats.skew` over the non-missing returns: `m3 / m2^(3/2)`; `NaN`
(`none`) on an empty sample or when `m2 = 0`. -/
noncomputable def skewOf (xs : List ℚ) : Option ℝ :=
  if xs.isEmpty ∨ momQ 2 xs = 0 then none
  else some ((momQ 3 xs : ℝ) / Real.sqrt (momQ 2 xs : ℝ) ^ 3)

/-- `scipy.stats.kurtosis` (Fisher, excess) over the non-missing returns:
`m4 / m2² − 3`; `NaN` (`none`) on an empty sample or when `m2 = 0`. -/
noncomputable def kurtOf (xs : List ℚ) : Option ℝ :=
  if xs.isEmpty ∨ momQ 2 xs = 0 then none
  else some ((momQ 4 xs : ℝ) / (momQ 2 xs : ℝ) ^ 2 - 3)

open Classical in
/-- The `sharpe_ratio` entry of `statistical_analysis`:
`(mean / std) * sqrt(252) if std != 0 else 0`.  When fewer than two returns
exist the std is `NaN`, the `!= 0` test is `True`, and the result is `NaN`
(`none`). -/
noncomputable def sharpeOf (rets : List ℚ) : Option ℝ :=
  (sampleVar rets).map (fun (v : ℚ) =>
    if Real.sqrt (v : ℝ) ≠ 0
    then ((meanQ rets : ℝ) / Real.sqrt (v : ℝ)) * Real.sqrt 252
    else 0)

/-- `Series.corr` (Pearson) between two aligned columns:
`Σ(x-mx)(y-my) / sqrt(Σ(x-mx)² · Σ(y-my)²)`, `NaN` (`none`) when either
column is degenerate (zero squared deviation, which covers samples of size
below two). -/
noncomputable def pearsonCorr (xs ys : List ℚ) : Option ℝ :=
  let ps := xs.zip ys
  let mx := meanQ (ps.map Prod.fst)
  let my := meanQ (ps.map Prod.snd)
  let sxx := (ps.map (fun p => (p.1 - mx) ^ 2)).sum
  let syy := (ps.map (fun p => (p.2 - my) ^ 2)).sum
  if sxx * syy = 0 then none
  else some (((ps.map (fun p => (p.1 - mx) * (p.2 - my))).sum : ℝ) /
             Real.sqrt ((sxx * syy : ℚ) : ℝ))

/-- The `stats_data` dictionary of `statistical_analysis` (`sharpe` embeds the
source's `sharpe_ratio` key).  `price_correlation = none` models the key being
absent when the table has no `Volume` column. -/
structure StatResult where
  daily_return_mean : Option ℚ
  daily_return_std : Option ℝ
  skewness : Option ℝ
  kurtosis : Option ℝ
  sharpe : Option ℝ
  price_correlation : Option (Option ℝ)

/-- The `stats_data` record as a function of the columns it reads. -/
noncomputable def statRecord (close : List ℚ) (volume : Option (List ℚ))
    (rets : List ℚ) : StatResult :=
  { daily_return_mean := meanNaN rets
    daily_return_std := stdNaN rets
    skewness := skewOf rets
    kurtosis := kurtOf rets
    sharpe := sharpeOf rets
    price_correlation := volume.map (fun v => pearsonCorr close v) }

/-- `statistical_analysis(df)`: creates the `Returns` column in place when it
is absent, then computes the statistics from the (possibly pre-existing)
`Returns` column together with `Close`/`Volume`. -/
noncomputable def statistical_analysis (df : StockDF) : StatResult × StockDF :=
  let df' := statMutate df
  (statRecord df'.close df'.volume (df'.returns.getD []), df')

/-- An IEEE-754 float value as produced by numpy scalar arithmetic: finite,
infinite, or `NaN`.  Division of a finite nonzero value by zero yields a
signed infinity (with a warning, not an exception); `0/0` yields `NaN`. -/
inductive FloatVal where
  | fin (q : ℚ)
  | posInf
  | negInf
  | nan
deriving DecidableEq, Repr

/-- numpy float division. -/
def fdiv (a b : ℚ) : FloatVal :=
  if b = 0 then
    (if 0 < a then .posInf else if a < 0 then .negInf else .nan)
  else .fin (a / b)

/-- Multiplication of a numpy float by the positive literal `100`. -/
def fmul100 : FloatVal → FloatVal
  | .fin q => .fin (q * 100)
  | .posInf => .posInf
  | .negInf => .negInf
  | .nan => .nan

/-- The `price_data` dictionary of `price_analysis`. -/
structure PriceData where
  highest_price : Option ℚ
  lowest_price : Option ℚ
  price_range : Option ℚ
  avg_price : Option ℚ
  price_std : Option ℝ
  last_price : ℚ
  price_change : FloatVal

/-- `price_analysis(df)`: pure reductions over `High`/`Low`/`Close`; performs
no column assignment, so the table comes back unchanged.  The first component
is `none` when `iloc` on an empty `Close` raises and the `except` clause
returns `{}`; `price_change = ((last − first) / first) · 100` in numpy float
arithmetic, so a zero first close yields an infinity or `NaN`, not an error. -/
noncomputable def price_analysis (df : StockDF) : Option PriceData × StockDF :=
  (match df.close.head?, df.close.getLast? with
   | some c0, some cl =>
       some { highest_price := df.high.max?
              lowest_price := df.low.min?
              price_range := Option.map₂ (fun a b => a - b) df.high.max? df.low.min?
              avg_price := meanNaN df.close
              price_std := stdNaN df.close
              last_price := cl
              price_change := fmul100 (fdiv (cl - c0) c0) }
   | _, _ => none, df)

/-- A parsed publication timestamp.  The pandas accessors used by the source
(`dt.date`, `dt.isocalendar().week`, `dt.month`) are pure projections of the
timestamp and are modelled as record fields: `date` is the ordinal of the
calendar date, `week` the ISO week number, `month` the calendar month
number. -/
structure Timestamp where
  date : ℕ
  week : ℕ
  month : ℕ
deriving DecidableEq, Repr

/-- The `time_period` argument of `analyze_trends`. -/
inductive Granularity where
  | daily
  | weekly
  | monthly
deriving DecidableEq, Repr

/-- The grouping key assigned to the `period` column for a given
granularity (anything other than `'weekly'`/`'monthly'` falls to the daily
branch in the source). -/
def periodOf : Granularity → Timestamp → ℕ
  | .weekly, t => t.week
  | .monthly, t => t.month
  | .daily, t => t.date

/-- One row of the labeled-headline table: parsed publication timestamp,
sentiment label, and the derived `period` column (`none` until
`analyze_trends` assigns it). -/
structure SRow where
  publishedAt : Timestamp
  sentiment : String
  period : Option ℕ := none
deriving DecidableEq, Repr

/-- The in-place mutations of `analyze_trends`:
`df['publishedAt'] = pd.to_datetime(df['publishedAt'])` (the identity on an
already-parsed timestamp) followed by the `period` column assignment. -/
def setPeriods (g : Granularity) (rows : List SRow) : List SRow :=
  rows.map (fun r => { r with period := some (periodOf g r.publishedAt) })

/-- Insert into an ascending list of keys. -/
def insertAsc (a : ℕ) : List ℕ → List ℕ
  | [] => [a]
  | b :: bs => if a ≤ b then a :: b :: bs else b :: insertAsc a bs

/-- Ascending insertion sort; models the sorted group keys of a pandas
`groupby`. -/
def sortAsc : List ℕ → List ℕ
  | [] => []
  | a :: as => insertAsc a (sortAsc as)


/-- The sorted group keys of `df.groupby(['period', ...])` /
`df.groupby(...).agg(...)`: the distinct values of the key column, ascending
(pandas drops `NaN` keys; after `setPeriods` none are `NaN`). -/
def groupKeys (ks : List ℕ) : List ℕ := sortAsc ks.dedup

/-- The sentiment labels of the rows whose `period` column equals `k` —
one group of `df.groupby(['period', 'sentiment'])`. -/
def bucketLabels (rows : List SRow) (k : ℕ) : List String :=
  (rows.filter (fun r => r.period = some k)).map (fun r => r.sentiment)

/-- The label columns of `.unstack(fill_value=0)`: every sentiment value
occurring anywhere in the table, in first-appearance order. -/
def allLabels (rows : List SRow) : List String :=
  (rows.map (fun r => r.sentiment)).dedup

/-- One row of the `counts` table of `analyze_trends`: for period `k`, the
number of headlines per sentiment label (0-filled for labels absent from the
bucket). -/
def countsRow (rows : List SRow) (k : ℕ) : List (String × ℕ) :=
  (allLabels rows).map (fun l => (l, (bucketLabels rows k).count l))

/-- One row of the `percentages` table:
`sentiment_dist.div(sentiment_dist.sum(axis=1), axis=0) * 100`, where the
divisor is that row's total (`sentiment_dist.sum(axis=1)`). -/
def pctRow (rows : List SRow) (k : ℕ) : List (String × ℚ) :=
  (countsRow rows k).map (fun p =>
    (p.1, ((p.2 : ℚ) / (((countsRow rows k).map (fun q => ((q.2 : ℕ) : ℚ))).sum)) * 100))

/-- The value returned by `analyze_trends`: the `counts` and `percentages`
tables, rows keyed by period in ascending key order. -/
structure TrendOut where
  counts : List (ℕ × List (String × ℕ))
  percentages : List (ℕ × List (String × ℚ))
deriving DecidableEq, Repr

/-- `analyze_trends(df, time_period)`: parses `publishedAt` and assigns the
`period` column in place, then aggregates.  Returned next to the result is the
mutated table the caller's dataframe now holds. -/
def analyze_trends (rows : List SRow) (g : Granularity) : TrendOut × List SRow :=
  let rows2 := setPeriods g rows
  let keys := groupKeys (rows2.filterMap (fun r => r.period))
  ({ counts := keys.map (fun k => (k, countsRow rows2 k))
     percentages := keys.map (fun k => (k, pctRow rows2 k)) },
   rows2)

/-- `value_counts().index[0]` of a list of labels: a label attaining the
maximal count, ties broken in favour of the first-encountered label (the
order `value_counts` preserves for small inputs); `None` (`none`) for an
empty list, as the `agg` lambda returns. -/
def modeFS (ls : List String) : Option String :=
  ls.dedup.foldl
    (fun acc l =>
      match acc with
      | none => some l
      | some b => if ls.count b < ls.count l then some l else some b)
    none

/-- The `daily_sentiment` series of `calculate_statistics`: per calendar date
(ascending), the mode of that day's sentiment labels. -/
def dailyModes (rows : List SRow) : List (Option String) :=
  (groupKeys (rows.map (fun r => r.publishedAt.date))).map
    (fun d => modeFS ((rows.filter (fun r => r.publishedAt.date = d)).map
      (fun r => r.sentiment)))

/-- Elementwise `!=` between a series cell and its `shift()`-ed predecessor:
a `NaN` on either side (`none`, the fill of the first position) compares as
unequal; two in-range cells compare by value. -/
def shiftNe (a b : Option (Option String)) : Bool :=
  match a, b with
  | none, _ => true
  | _, none => true
  | some x, some y => decide (x ≠ y)

/-- `(daily_sentiment != daily_sentiment.shift()).sum()`: pair every position
with its predecessor (`NaN` before the first) and count the unequal pairs. -/
def sentiment_shifts (rows : List SRow) : ℕ :=
  let ms := dailyModes rows
  (((ms.map some).zip (none :: ms.map some)).filter
    (fun p => shiftNe p.1 p.2)).length

/-- The sentiment-shift count in the words of the spec: the number of
bucket-to-bucket transitions where the mode differs from the mode of the
immediately preceding chronologically ordered bucket, with no shift counted
for the first bucket. -/
def specShiftCount (rows : List SRow) : ℕ :=
  let ms := dailyModes rows
  ((ms.zip ms.tail).filter (fun p => decide (p.1 ≠ p.2))).length

theorem rollingMean_length (w : ℕ) (xs : List ℚ) :
    (rollingMean w xs).length = xs.length := by
  simp [rollingMean]

theorem rollingMean_getD (w : ℕ) (xs : List ℚ) (i : ℕ) (hi : i < xs.length) :
    (rollingMean w xs).getD i none =
      (if i + 1 < w then none
       else some ((((xs.take (i + 1)).drop (i + 1 - w)).sum) / (w : ℚ))) := by
  simp [rollingMean, List.getD_eq_getElem?_getD, List.getElem?_range, hi]

/-- The sum of the `b` elements of `xs` starting at position `a`, written as an
indexed sum, provided the slice lies inside the list. -/
theorem sum_drop_take (xs : List ℚ) (a b : ℕ) (h : a + b ≤ xs.length) :
    ((xs.drop a).take b).sum = ∑ j ∈ Finset.range b, xs.getD (a + j) 0 := by
  induction b with
  | zero => simp
  | succ n ih =>
      have hn : a + n ≤ xs.length := by omega
      have hx : a + n < xs.length := by omega
      rw [List.take_succ, List.sum_append, ih hn, Finset.sum_range_succ]
      have hcell : (xs.drop a)[n]? = some (xs.getD (a + n) 0) := by
        rw [List.getElem?_drop, List.getElem?_eq_getElem hx,
          List.getD_eq_getElem xs 0 hx]
      simp [hcell]

theorem mem_insertAsc (a x : ℕ) (l : List ℕ) :
    x ∈ insertAsc a l ↔ x = a ∨ x ∈ l := by
  induction l with
  | nil => simp [insertAsc]
  | cons b bs ih =>
      by_cases h : a ≤ b
      · simp [insertAsc, h]
      · simp [insertAsc, h, ih]
        tauto

theorem mem_sortAsc (x : ℕ) (l : List ℕ) : x ∈ sortAsc l ↔ x ∈ l := by
  induction l with
  | nil => simp [sortAsc]
  | cons a as ih => simp [sortAsc, mem_insertAsc, ih]

theorem sampleVar_nonneg (xs : List ℚ) (v : ℚ) (h : sampleVar xs = some v) :
    0 ≤ v := by
  unfold sampleVar at h
  by_cases hl : 2 ≤ xs.length
  · rw [if_pos hl] at h
    obtain rfl : _ = v := Option.some.injEq _ _ ▸ h
    apply div_nonneg
    · exact List.sum_nonneg (by
        intro x hx
        obtain ⟨y, _, rfl⟩ := List.mem_map.mp hx
        positivity)
    · positivity
  · rw [if_neg hl] at h
    exact absurd h (by simp)

/-- Claim C1: for a `Close` column of length `N ≥ 20`, the `MA20` column that
`technical_analysis` assigns is the size-20 rolling mean: entry `i` is missing
iff `i + 1 < 20`, and for `i ≥ 19` it equals the arithmetic mean of
`Close[i-19..i]`. -/
theorem ma20_window_spec (df : StockDF) (hN : 20 ≤ df.close.length)
    (i : ℕ) (hi : i < df.close.length) :
    ∃ ma, (techMutate df).ma20 = some ma ∧
      (ma.getD i none = none ↔ i + 1 < 20) ∧
      (19 ≤ i → ma.getD i none =
        some ((∑ j ∈ Finset.Icc (i - 19) i, df.close.getD j 0) / 20)) := by
  refine ⟨rollingMean 20 df.close, rfl, ?_, ?_⟩
  · rw [rollingMean_getD 20 df.close i hi]
    by_cases h : i + 1 < 20
    · simp [h]
    · simp [h]
  · intro h19
    have hlt : ¬ (i + 1 < 20) := by omega
    rw [rollingMean_getD 20 df.close i hi, if_neg hlt]
    have hdt : (df.close.take (i + 1)).drop (i + 1 - 20) =
        (df.close.drop (i - 19)).take 20 := by
      have h1 : i + 1 - 20 = i - 19 := by omega
      rw [h1, List.drop_take]
      congr 1
      omega
    rw [hdt, sum_drop_take df.close (i - 19) 20 (by omega)]
    rw [← Nat.Ico_succ_right, Finset.sum_Ico_eq_sum_range]
    have h2 : i + 1 - (i - 19) = 20 := by omega
    rw [h2]
    norm_num

/-- Witness for C1 on a concrete 20-observation series. -/
theorem ma20_window_spec_witness :
    20 ≤ (List.replicate 20 (1 : ℚ)).length ∧ 19 < (List.replicate 20 (1 : ℚ)).length ∧
    (∃ ma, (techMutate { close := List.replicate 20 (1 : ℚ) }).ma20 = some ma ∧
      (ma.getD 19 none = none ↔ 19 + 1 < 20) ∧
      (19 ≤ 19 → ma.getD 19 none =
        some ((∑ j ∈ Finset.Icc (19 - 19) 19,
          (List.replicate 20 (1 : ℚ)).getD j 0) / 20))) :=
  ⟨by decide, by decide,
    ma20_window_spec { close := List.replicate 20 (1 : ℚ) } (by decide) 19 (by decide)⟩

/-- Claim C3: the Sharpe ratio produced by `statistical_analysis` equals
`(mean of daily returns / sample std of daily returns) · √252` whenever the
std is nonzero, and equals exactly 0 whenever the std is exactly 0, regardless
of the mean return. -/
theorem sharpe_zero_std_spec (df : StockDF) (hfresh : df.returns = none)
    (v : ℚ) (hv : sampleVar (pctChange df.close) = some v) :
    (v ≠ 0 → (statistical_analysis df).1.sharpe =
      some (((meanQ (pctChange df.close) : ℝ) / Real.sqrt (v : ℝ)) * Real.sqrt 252)) ∧
    (v = 0 → (statistical_analysis df).1.sharpe = some 0) := by
  have hv0 : 0 ≤ v := sampleVar_nonneg _ _ hv
  have hsharpe : (statistical_analysis df).1.sharpe = sharpeOf (pctChange df.close) := by
    simp [statistical_analysis, statMutate, hfresh, statRecord]
  constructor
  · intro hne
    have hs : Real.sqrt (v : ℝ) ≠ 0 := by
      rw [Ne, Real.sqrt_eq_zero']
      intro hle
      exact hne (le_antisymm (by exact_mod_cast hle) hv0)
    rw [hsharpe]
    unfold sharpeOf
    rw [hv]
    simp only [Option.map_some']
    rw [if_pos hs]
  · intro h0
    subst h0
    rw [hsharpe]
    unfold sharpeOf
    rw [hv]
    simp

/-- Witness for C3 on `Close = [100, 110, 121]`, whose two returns are both
`1/10`, so the return std is exactly 0 and the Sharpe ratio is 0. -/
theorem sharpe_zero_std_spec_witness :
    (StockDF.returns { close := [100, 110, 121] } = none) ∧
    sampleVar (pctChange (StockDF.close { close := [100, 110, 121] })) = some 0 ∧
    ((0 : ℚ) ≠ 0 → (statistical_analysis { close := [100, 110, 121] }).1.sharpe =
      some (((meanQ (pctChange (StockDF.close { close := [100, 110, 121] })) : ℝ) /
        Real.sqrt ((0 : ℚ) : ℝ)) * Real.sqrt 252)) ∧
    ((0 : ℚ) = 0 → (statistical_analysis { close := [100, 110, 121] }).1.sharpe = some 0) :=
  ⟨rfl, by norm_num [sampleVar, pctChange, meanQ],
    (sharpe_zero_std_spec { close := [100, 110, 121] } rfl 0
      (by norm_num [sampleVar, pctChange, meanQ])).1,
    (sharpe_zero_std_spec { close := [100, 110, 121] } rfl 0
      (by norm_num [sampleVar, pctChange, meanQ])).2⟩

/-- Claim C4 (code evaluation at the failing input): on a series whose first
`Close` is 0 (`Close = [0, 1]`), `price_analysis` does not signal any error —
it returns a populated `price_data` dictionary whose `price_change` is the
numpy float `+inf` produced by the zero division. -/
theorem price_zero_first_close_eval :
    ((price_analysis { close := [0, 1] }).1).map (fun p => p.price_change) =
      some FloatVal.posInf := by
  simp [price_analysis, fdiv, fmul100]

/-- Claim C5: on a series with at least one observation and a nonzero first
`Close`, the `price_change` field of `price_analysis` is
`((last Close − first Close) / first Close) · 100`, and it is 0 whenever the
first and last `Close` are equal. -/
theorem price_change_formula_spec (df : StockDF) (c0 cl : ℚ)
    (h0 : df.close.head? = some c0) (hl : df.close.getLast? = some cl)
    (hne : c0 ≠ 0) :
    ∃ pd, (price_analysis df).1 = some pd ∧
      pd.price_change = FloatVal.fin (((cl - c0) / c0) * 100) ∧
      (c0 = cl → pd.price_change = FloatVal.fin 0) := by
  refine ⟨{ highest_price := df.high.max?
            lowest_price := df.low.min?
            price_range := Option.map₂ (fun a b => a - b) df.high.max? df.low.min?
            avg_price := meanNaN df.close
            price_std := stdNaN df.close
            last_price := cl
            price_change := fmul100 (fdiv (cl - c0) c0) }, ?_, ?_, ?_⟩
  · simp [price_analysis, h0, hl]
  · simp [fdiv, hne, fmul100]
  · intro heq
    subst heq
    simp [fdiv, hne, fmul100]

/-- Witness for C5 on `Close = [5, 5]`: equal first and last close, so the
percentage change is 0. -/
theorem price_change_formula_spec_witness :
    (StockDF.close { close := [5, 5] }).head? = some 5 ∧
    (StockDF.close { close := [5, 5] }).getLast? = some 5 ∧
    (5 : ℚ) ≠ 0 ∧
    (∃ pd, (price_analysis { close := [5, 5] }).1 = some pd ∧
      pd.price_change = FloatVal.fin ((((5 : ℚ) - 5) / 5) * 100) ∧
      ((5 : ℚ) = 5 → pd.price_change = FloatVal.fin 0)) :=
  ⟨rfl, rfl, by norm_num,
    price_change_formula_spec { close := [5, 5] } 5 5 rfl rfl (by norm_num)⟩

/-- The last entry of the rolling mean, flattened: `NaN` for a series shorter
than the window, otherwise the mean of the last `w` observations. -/
theorem rollingMean_getLast (w : ℕ) (xs : List ℚ) (h : xs ≠ []) :
    (rollingMean w xs).getLast?.join =
      if xs.length < w then none
      else some (((xs.drop (xs.length - w)).sum) / (w : ℚ)) := by
  have hlen : 1 ≤ xs.length := List.length_pos.mpr h
  rw [List.getLast?_eq_getElem?, rollingMean_length]
  have hcell : (rollingMean w xs)[xs.length - 1]? =
      some (if xs.length - 1 + 1 < w then none
            else some ((((xs.take (xs.length - 1 + 1)).drop (xs.length - 1 + 1 - w)).sum) /
              (w : ℚ))) := by
    simp only [rollingMean, List.getElem?_map,
      List.getElem?_range (by omega : xs.length - 1 < xs.length)]
    rfl
  rw [hcell]
  have h1 : xs.length - 1 + 1 = xs.length := by omega
  rw [h1, List.take_length]
  by_cases hlt : xs.length < w
  · simp [hlt]
  · simp [hlt]

/-- Counterexample to claim C2: on the one-observation series `Close = [1]`
(fewer than 20 observations), `technical_analysis` does not report the trend
as unavailable — the `NaN` last `MA20` makes the comparison `False` and the
trend is reported as `'Downward'`. -/
theorem trend_short_series_cex :
    (StockDF.close { close := [(1 : ℚ)] }).length < 20 ∧
    ((technical_analysis { close := [(1 : ℚ)] }).1).map TechResult.trend =
      some "Downward" := by
  constructor
  · decide
  · rfl

/-- Claim C2 as amended: whenever `technical_analysis` returns a non-empty
analysis (so the other fields — volatility, and the volume fields when a
`Volume` column exists — are computed alongside), the trend on a series of
fewer than 20 observations is `'Downward'` (the missing last `MA20` compares
as `False`), and on a series of at least 20 observations it is `'Upward'`
exactly when the last `Close` strictly exceeds the last `MA20`, else
`'Downward'`. -/
theorem trend_spec_amended (df : StockDF) (cl : ℚ)
    (hl : df.close.getLast? = some cl)
    (r : TechResult) (hres : (technical_analysis df).1 = some r) :
    (df.close.length < 20 → r.trend = "Downward") ∧
    (20 ≤ df.close.length →
      ∃ m, (rollingMean 20 df.close).getLast?.join = some m ∧
        r.trend = (if m < cl then "Upward" else "Downward")) := by
  have hne : df.close ≠ [] := by
    intro hempty
    rw [hempty] at hl
    exact absurd hl (by simp)
  have htrend : r.trend =
      (if nanGt cl ((rollingMean 20 df.close).getLast?.join)
       then "Upward" else "Downward") := by
    unfold technical_analysis at hres
    rw [hl] at hres
    rcases hvol : df.volume with _ | v
    · rw [hvol] at hres
      dsimp only at hres
      simp only [Option.some.injEq] at hres
      rw [← hres]
    · rw [hvol] at hres
      dsimp only at hres
      rcases hvl : v.getLast? with _ | vlast
      · rw [hvl] at hres
        exact absurd hres (by simp)
      · rw [hvl] at hres
        dsimp only at hres
        simp only [Option.some.injEq] at hres
        rw [← hres]
  constructor
  · intro hshort
    rw [htrend, rollingMean_getLast 20 df.close hne, if_pos hshort]
    simp [nanGt]
  · intro hlong
    have hj : (rollingMean 20 df.close).getLast?.join =
        some (((df.close.drop (df.close.length - 20)).sum) / ((20 : ℕ) : ℚ)) := by
      rw [rollingMean_getLast 20 df.close hne]
      rw [if_neg (by omega)]
    refine ⟨_, hj, ?_⟩
    rw [htrend, hj]
    by_cases hcmp : ((df.close.drop (df.close.length - 20)).sum) / ((20 : ℕ) : ℚ) < cl
    · simp [nanGt, hcmp]
    · simp [nanGt, hcmp]

/-- Witness for the amended C2 on the one-observation series `Close = [1]`. -/
theorem trend_spec_amended_witness :
    ((StockDF.close { close := [(1 : ℚ)] }).getLast? = some 1) ∧
    ((technical_analysis { close := [(1 : ℚ)] }).1 =
      some { volatility := none, trend := "Downward",
             avg_volume := none, volume_trend := none }) ∧
    (((StockDF.close { close := [(1 : ℚ)] }).length < 20 →
        TechResult.trend { volatility := none, trend := "Downward",
                           avg_volume := none, volume_trend := none } = "Downward") ∧
      (20 ≤ (StockDF.close { close := [(1 : ℚ)] }).length →
        ∃ m, (rollingMean 20 (StockDF.close { close := [(1 : ℚ)] })).getLast?.join = some m ∧
          TechResult.trend { volatility := none, trend := "Downward",
                             avg_volume := none, volume_trend := none } =
            (if m < 1 then "Upward" else "Downward"))) :=
  ⟨rfl, rfl, trend_spec_amended { close := [(1 : ℚ)] } 1 rfl _ rfl⟩

/-- Counterexample to claim C9: `technical_analysis` does not leave the
caller's table unchanged — on `Close = [1]` it comes back with the derived
`MA5`/`MA20`/`Returns` columns added in place. -/
theorem frame_effect_cex :
    (technical_analysis { close := [(1 : ℚ)] }).2 ≠ { close := [(1 : ℚ)] } := by
  intro h
  have h2 := congrArg StockDF.ma20 h
  simp [technical_analysis, techMutate] at h2

/-- Claim C9 as amended: `price_analysis` leaves the table exactly unchanged;
`technical_analysis` and `statistical_analysis` mutate the caller's table only
by assigning the derived columns (`MA5`, `MA20`, `Returns`), never touching
the caller's `Open`/`High`/`Low`/`Close`/`Volume` columns. -/
theorem frame_effect_spec_amended (df : StockDF) :
    (price_analysis df).2 = df ∧
    (technical_analysis df).2 = techMutate df ∧
    (statistical_analysis df).2 = statMutate df ∧
    (techMutate df).openCol = df.openCol ∧ (techMutate df).high = df.high ∧
    (techMutate df).low = df.low ∧ (techMutate df).close = df.close ∧
    (techMutate df).volume = df.volume ∧
    (statMutate df).openCol = df.openCol ∧ (statMutate df).high = df.high ∧
    (statMutate df).low = df.low ∧ (statMutate df).close = df.close ∧
    (statMutate df).volume = df.volume := by
  refine ⟨rfl, rfl, rfl, rfl, rfl, rfl, rfl, rfl, ?_, ?_, ?_, ?_, ?_⟩ <;>
    cases hr : df.returns <;> simp [statMutate, hr]

/-- Claim C10: on a fresh `PriceSeries` (no precomputed `Returns` column),
`statistical_analysis` returns the same record whether it runs standalone or
on the table `technical_analysis` has already mutated — the reused `Returns`
column is exactly the recomputed one. -/
theorem stat_reuse_spec (df : StockDF) (hfresh : df.returns = none) :
    (statistical_analysis ((technical_analysis df).2)).1 =
      (statistical_analysis df).1 := by
  have h2 : (technical_analysis df).2 = techMutate df := rfl
  rw [h2]
  simp [statistical_analysis, statMutate, techMutate, hfresh]

/-- Witness for C10 on `Close = [1]`. -/
theorem stat_reuse_spec_witness :
    (StockDF.returns { close := [(1 : ℚ)] } = none) ∧
    (statistical_analysis ((technical_analysis { close := [(1 : ℚ)] }).2)).1 =
      (statistical_analysis { close := [(1 : ℚ)] }).1 :=
  ⟨rfl, stat_reuse_spec { close := [(1 : ℚ)] } rfl⟩

theorem setPeriods_idem (g : Granularity) (rows : List SRow) :
    setPeriods g (setPeriods g rows) = setPeriods g rows := by
  unfold setPeriods
  rw [List.map_map]
  rfl

/-- Claim C8: `analyze_trends` is idempotent — running it again on the table
the first call mutated in place, with the same granularity, produces exactly
the same counts and percentages tables. -/
theorem aggregate_idempotent_spec (rows : List SRow) (g : Granularity) :
    (analyze_trends ((analyze_trends rows g).2) g).1 = (analyze_trends rows g).1 := by
  simp only [analyze_trends, setPeriods_idem]

theorem sum_counts_eq_length (A b : List String) (hsub : ∀ x ∈ b, x ∈ A) :
    (A.dedup.map (fun l => b.count l)).sum = b.length := by
  rw [← List.sum_toFinset _ (List.nodup_dedup A)]
  rw [show A.dedup.toFinset = A.toFinset from by
    ext x
    simp [List.mem_toFinset, List.mem_dedup]]
  rw [← List.sum_toFinset_count_eq_length b]
  refine (Finset.sum_subset ?_ ?_).symm
  · intro x hx
    simp only [List.mem_toFinset] at hx ⊢
    exact hsub x hx
  · intro x _ hxb
    simp only [List.mem_toFinset] at hxb
    exact List.count_eq_zero.mpr hxb

theorem sum_map_div_mul {α : Type} (L : List α) (f : α → ℚ) (t : ℚ) :
    (L.map (fun l => (f l / t) * 100)).sum = ((L.map f).sum / t) * 100 := by
  induction L with
  | nil => simp
  | cons a as ih =>
      simp only [List.map_cons, List.sum_cons, ih]
      ring

theorem bucketLabels_sub (rows2 : List SRow) (k : ℕ) :
    ∀ x ∈ bucketLabels rows2 k, x ∈ rows2.map (fun r => r.sentiment) := by
  intro x hx
  unfold bucketLabels at hx
  rw [List.mem_map] at hx
  obtain ⟨r, hr, rfl⟩ := hx
  exact List.mem_map.mpr ⟨r, (List.mem_filter.mp hr).1, rfl⟩

theorem countsRow_total (rows2 : List SRow) (k : ℕ) :
    ((countsRow rows2 k).map (fun q => ((q.2 : ℕ) : ℚ))).sum =
      ((bucketLabels rows2 k).length : ℚ) := by
  unfold countsRow allLabels
  rw [List.map_map]
  rw [show ((fun q : String × ℕ => ((q.2 : ℕ) : ℚ)) ∘
        (fun l => (l, (bucketLabels rows2 k).count l))) =
      ((fun n : ℕ => (n : ℚ)) ∘ (fun l => (bucketLabels rows2 k).count l)) from rfl]
  rw [← List.map_map, ← Nat.cast_list_sum]
  rw [sum_counts_eq_length (rows2.map (fun r => r.sentiment)) _ (bucketLabels_sub rows2 k)]

theorem pctRow_sum (rows2 : List SRow) (k : ℕ)
    (hbne : bucketLabels rows2 k ≠ []) :
    ((pctRow rows2 k).map Prod.snd).sum = 100 := by
  have hlen : ((bucketLabels rows2 k).length : ℚ) ≠ 0 := by
    exact_mod_cast (List.length_pos.mpr hbne).ne'
  unfold pctRow
  rw [List.map_map]
  rw [show (Prod.snd ∘ (fun p : String × ℕ =>
      (p.1, ((p.2 : ℚ) /
        (((countsRow rows2 k).map (fun q => ((q.2 : ℕ) : ℚ))).sum)) * 100))) =
      (fun p : String × ℕ =>
        ((((p.2 : ℕ) : ℚ)) /
          (((countsRow rows2 k).map (fun q => ((q.2 : ℕ) : ℚ))).sum) * 100))
      from rfl]
  rw [show (fun p : String × ℕ =>
        ((((p.2 : ℕ) : ℚ)) /
          (((countsRow rows2 k).map (fun q => ((q.2 : ℕ) : ℚ))).sum) * 100)) =
      (fun p : String × ℕ =>
        (((fun q : String × ℕ => ((q.2 : ℕ) : ℚ)) p) /
          (((countsRow rows2 k).map (fun q => ((q.2 : ℕ) : ℚ))).sum)) * 100)
      from rfl]
  rw [sum_map_div_mul (countsRow rows2 k) (fun q : String × ℕ => ((q.2 : ℕ) : ℚ))
    (((countsRow rows2 k).map (fun q => ((q.2 : ℕ) : ℚ))).sum)]
  rw [countsRow_total rows2 k, div_self hlen]
  norm_num

/-- Claim C7: every row of the percentages table produced by `analyze_trends`
(each row corresponds to a bucket containing at least one headline) has
per-label percentages summing to exactly 100, hence to 100 within the `1e-6`
tolerance. -/
theorem pct_row_sums_spec (rows : List SRow) (g : Granularity) (k : ℕ)
    (pr : List (String × ℚ))
    (hmem : (k, pr) ∈ (analyze_trends rows g).1.percentages) :
    ((pr.map Prod.snd).sum = 100) ∧ |(pr.map Prod.snd).sum - 100| ≤ 1 / 1000000 := by
  have hmain : (pr.map Prod.snd).sum = 100 := by
    simp only [analyze_trends, List.mem_map] at hmem
    obtain ⟨k', hk', hpair⟩ := hmem
    have hkk : k' = k := congrArg Prod.fst hpair
    have hpr : pctRow (setPeriods g rows) k' = pr := congrArg Prod.snd hpair
    subst hkk
    rw [← hpr]
    apply pctRow_sum
    have hkmem : k' ∈ ((setPeriods g rows).filterMap (fun r => r.period)).dedup := by
      rw [groupKeys, mem_sortAsc] at hk'
      exact hk'
    rw [List.mem_dedup, List.mem_filterMap] at hkmem
    obtain ⟨r, hr, hrp⟩ := hkmem
    have hrin : r ∈ (setPeriods g rows).filter (fun r => r.period = some k') :=
      List.mem_filter.mpr ⟨hr, by simp [hrp]⟩
    unfold bucketLabels
    intro hnil
    rw [List.map_eq_nil_iff] at hnil
    rw [hnil] at hrin
    exact absurd hrin (List.not_mem_nil r)
  exact ⟨hmain, by rw [hmain]; norm_num⟩

/-- Witness for C7 on a single-headline table with daily granularity. -/
theorem pct_row_sums_spec_witness :
    ((1, [("POSITIVE", (100 : ℚ))]) ∈
      (analyze_trends [{ publishedAt := ⟨1, 1, 1⟩, sentiment := "POSITIVE" }]
        Granularity.daily).1.percentages) ∧
    ((([("POSITIVE", (100 : ℚ))].map Prod.snd).sum = 100) ∧
      |([("POSITIVE", (100 : ℚ))].map Prod.snd).sum - 100| ≤ 1 / 1000000) :=
  ⟨by norm_num [analyze_trends, setPeriods, periodOf, groupKeys, sortAsc, insertAsc,
      pctRow, countsRow, allLabels, bucketLabels, List.dedup, List.filter, List.count,
      List.countP, List.countP.go],
    pct_row_sums_spec [{ publishedAt := ⟨1, 1, 1⟩, sentiment := "POSITIVE" }]
      Granularity.daily 1 [("POSITIVE", (100 : ℚ))]
      (by norm_num [analyze_trends, setPeriods, periodOf, groupKeys, sortAsc, insertAsc,
        pctRow, countsRow, allLabels, bucketLabels, List.dedup, List.filter, List.count,
        List.countP, List.countP.go])⟩

theorem codeShifts_aux (y : Option String) (xs : List (Option String)) :
    (((xs.map some).zip (some y :: xs.map some)).filter
      (fun p => shiftNe p.1 p.2)).length =
    (((y :: xs).zip xs).filter
      (fun p : Option String × Option String => !decide (p.1 = p.2))).length := by
  induction xs generalizing y with
  | nil => rfl
  | cons z zs ih =>
      rw [List.map_cons, List.zip_cons_cons, List.zip_cons_cons,
        List.filter_cons, List.filter_cons]
      have hd : shiftNe (some z) (some y) = !decide ((y : Option String) = z) := by
        simp only [shiftNe, ne_eq, decide_not]
        congr 1
        rw [decide_eq_decide]
        exact eq_comm
      have hgen : ∀ {α β : Type} (c : Bool) (a : α) (b : β)
          (l1 : List α) (l2 : List β), l1.length = l2.length →
          (if c = true then a :: l1 else l1).length =
          (if c = true then b :: l2 else l2).length := by
        intro α β c a b l1 l2 h
        cases c <;> simp [h]
      rw [hd]
      exact hgen (!decide ((y : Option String) = z)) (some z, some y) (y, z) _ _ (ih z)

/-- Counterexample to claim C6: on the spec's own example — two headlines on
day 1 (POSITIVE then NEGATIVE) and one POSITIVE headline on day 2 — the code's
shift count is 1, not 0: `daily_sentiment.shift()` fills the first position
with `NaN`, the `!=` comparison against `NaN` is `True`, and so the first
bucket always counts as a shift. -/
theorem shift_count_cex :
    sentiment_shifts
      [{ publishedAt := ⟨1, 1, 1⟩, sentiment := "POSITIVE" },
       { publishedAt := ⟨1, 1, 1⟩, sentiment := "NEGATIVE" },
       { publishedAt := ⟨2, 1, 1⟩, sentiment := "POSITIVE" }] = 1 ∧
    sentiment_shifts
      [{ publishedAt := ⟨1, 1, 1⟩, sentiment := "POSITIVE" },
       { publishedAt := ⟨1, 1, 1⟩, sentiment := "NEGATIVE" },
       { publishedAt := ⟨2, 1, 1⟩, sentiment := "POSITIVE" }] ≠ 0 := by
  decide

/-- Claim C6 as amended: for every non-empty headline table, the shift count
computed by `calculate_statistics` equals 1 (the first bucket, compared
against the `NaN` fill of `shift()`) plus the number of bucket-to-bucket
transitions whose mode differs from the chronologically preceding bucket's
mode; on the spec's example it is 1, not 0. -/
theorem sentiment_shifts_amended (rows : List SRow) (hne : rows ≠ []) :
    sentiment_shifts rows = 1 + specShiftCount rows := by
  have hms : dailyModes rows ≠ [] := by
    obtain ⟨r, rs, rfl⟩ := List.exists_cons_of_ne_nil hne
    unfold dailyModes
    intro h
    rw [List.map_eq_nil_iff] at h
    have hmem : r.publishedAt.date ∈
        groupKeys ((r :: rs).map (fun r => r.publishedAt.date)) := by
      unfold groupKeys
      rw [mem_sortAsc, List.mem_dedup]
      exact List.mem_map.mpr ⟨r, List.mem_cons_self r rs, rfl⟩
    rw [h] at hmem
    exact absurd hmem (List.not_mem_nil _)
  obtain ⟨x, xs, hxs⟩ := List.exists_cons_of_ne_nil hms
  unfold sentiment_shifts specShiftCount
  rw [hxs]
  simp only [List.map_cons, List.tail_cons, List.zip_cons_cons, List.filter_cons,
    ne_eq, decide_not]
  rw [show shiftNe (some x) none = true from rfl]
  simp only [if_true, List.length_cons]
  rw [codeShifts_aux x xs]
  omega

/-- Witness for the amended C6 on the spec's example table. -/
theorem sentiment_shifts_amended_witness :
    ([{ publishedAt := (⟨1, 1, 1⟩ : Timestamp), sentiment := "POSITIVE" },
      { publishedAt := ⟨1, 1, 1⟩, sentiment := "NEGATIVE" },
      { publishedAt := ⟨2, 1, 1⟩, sentiment := "POSITIVE" }] ≠ ([] : List SRow)) ∧
    sentiment_shifts
      [{ publishedAt := ⟨1, 1, 1⟩, sentiment := "POSITIVE" },
       { publishedAt := ⟨1, 1, 1⟩, sentiment := "NEGATIVE" },
       { publishedAt := ⟨2, 1, 1⟩, sentiment := "POSITIVE" }] =
      1 + specShiftCount
        [{ publishedAt := ⟨1, 1, 1⟩, sentiment := "POSITIVE" },
         { publishedAt := ⟨1, 1, 1⟩, sentiment := "NEGATIVE" },
         { publishedAt := ⟨2, 1, 1⟩, sentiment := "POSITIVE" }] :=
  ⟨by decide,
    sentiment_shifts_amended
      [{ publishedAt := ⟨1, 1, 1⟩, sentiment := "POSITIVE" },
       { publishedAt := ⟨1, 1, 1⟩, sentiment := "NEGATIVE" },
       { publishedAt := ⟨2, 1, 1⟩, sentiment := "POSITIVE" }] (by decide)⟩
